import Mathlib

/-!
Shallow embedding of `src/server.py` (cidermill): a pool of `trio` tasks,
each of which repeatedly provisions a `tart` VM, races the VM process
against an ssh-launched GitHub Actions runner session, and deletes the VM
in a shielded, deadline-bounded cleanup.

Modelling conventions:
* Python strings are `List Char` (`PyStr`); external command lines are
  `List String`.
* `trio.run_process` is called with its default `check=True` everywhere in
  `server.py` except `tart run` (which passes `check=False`), so a non-zero
  returncode surfaces as a raised `subprocess.CalledProcessError`, never as
  a returned result.  `run_process` below takes the returncode the external
  command would produce and returns `Except`.
* Python exceptions are the inductive `Exc`.  `except Exception` catches
  only `Exception` subclasses; `SystemExit` and `trio.Cancelled` derive
  from `BaseException` only, which `Exc.isException` records.
* Time is in abstract units (`Nat`); a `trio.CancelScope` with a relative
  deadline is modelled by `cancelScopeRun`.
-/

namespace Cidermill

/-- Python strings, modelled as lists of characters. -/
abbrev PyStr := List Char

/-- The exceptions that can cross the boundaries the claims talk about.
`calledProcessError` records the command and its returncode, as
`subprocess.CalledProcessError` does; `unboundLocalError` is what
`get_tart_ip` raises when every attempt failed and `result` was never
bound; `systemExit` is `sys.exit`; `cancelled` is `trio.Cancelled` as
delivered to a task whose enclosing scope was cancelled from outside. -/
inductive Exc where
  | calledProcessError (cmd : List String) (returncode : Int)
  | unboundLocalError
  | systemExit (code : Int)
  | cancelled
  deriving DecidableEq, Repr

/-- Whether a Python `except Exception` clause catches this exception.
`SystemExit` and `trio.Cancelled` are `BaseException`s, not `Exception`s. -/
def Exc.isException : Exc → Bool
  | .calledProcessError _ _ => true
  | .unboundLocalError => true
  | .systemExit _ => false
  | .cancelled => false

/-- The result object `trio.run_process` returns when it returns at all. -/
structure ProcResult where
  returncode : Int
  deriving DecidableEq, Repr

/-- `await trio.run_process(cmd)` with the default `check=True`, given the
returncode `rc` the external command produces: a non-zero returncode raises
`subprocess.CalledProcessError`, a zero returncode yields the completed
process object. -/
def run_process (cmd : List String) (rc : Int) : Except Exc ProcResult :=
  if rc ≠ 0 then .error (.calledProcessError cmd rc)
  else .ok ⟨rc⟩

/-- The fields of the `config` dictionary that the supervision core reads. -/
structure Config where
  base_image : String
  cpus : Nat
  memory : Nat
  runner_base_name : String
  org : String
  user : String
  labels : String
  num_vms : Nat
  deriving Repr

/-- The `tart clone` command issued by `provision_tart_vm`. -/
def cloneCmd (cfg : Config) (runner_name : String) : List String :=
  ["tart", "clone", cfg.base_image, runner_name]

/-- The `tart set` command issued by `provision_tart_vm`. -/
def setCmd (cfg : Config) (runner_name : String) : List String :=
  ["tart", "set", runner_name, "--cpu", toString cfg.cpus,
   "--memory", toString cfg.memory]

/-- `provision_tart_vm` (src/server.py lines 86-111).  The random suffix is
not modellable, so the generated `runner_name` is a parameter; `cloneRc`
and `setRc` are the returncodes of the two `tart` invocations.  Because
`run_process` runs with `check=True`, a non-zero returncode raises before
`result.returncode` is ever inspected, so the two `sys.exit(1)` branches
are unreachable; they are embedded anyway, guarded exactly as in the
source. -/
def provision_tart_vm (cfg : Config) (runner_name : String)
    (cloneRc setRc : Int) : Except Exc String :=
  match run_process (cloneCmd cfg runner_name) cloneRc with
  | .error e => .error e
  | .ok r1 =>
    if r1.returncode ≠ 0 then .error (.systemExit 1)
    else
      match run_process (setCmd cfg runner_name) setRc with
      | .error e => .error e
      | .ok r2 =>
        if r2.returncode ≠ 0 then .error (.systemExit 1)
        else .ok runner_name

/-- The `tart ip` command issued by each polling attempt of `get_tart_ip`;
each attempt waits at most 3 seconds (`--wait 3`). -/
def tartIpCmd (runner_name : String) : List String :=
  ["tart", "ip", runner_name, "--wait", "3"]

/-- The `while attempts < retries` loop of `get_tart_ip`
(src/server.py lines 114-127).  `res k` is what attempt number `k`
produces: `some s` when `tart ip` exits 0 with stripped stdout `s`, `none`
when it raises `subprocess.CalledProcessError` (caught and retried).  The
first component counts the `tart ip` invocations actually made.  When
every attempt fails, the loop exhausts and the trailing
`return result.stdout...` raises `UnboundLocalError`, because `result` was
never bound. -/
def getTartIpGo (res : Nat → Option String) (attempts retries : Nat) :
    Nat × Except Exc String :=
  if _h : attempts < retries then
    match res attempts with
    | some s => (attempts + 1, .ok s)
    | none => getTartIpGo res (attempts + 1) retries
  else (attempts, .error .unboundLocalError)
  termination_by retries - attempts
  decreasing_by omega

/-- `get_tart_ip(runner_name, retries)`: number of `tart ip` calls made,
and the returned address or raised exception. -/
def get_tart_ip (res : Nat → Option String) (retries : Nat) :
    Nat × Except Exc String :=
  getTartIpGo res 0 retries

/-- One iteration of the Slot Supervisor loop as the environment
determines it: the outcome of `await runner(config)` and, when that
outcome is a failure that will be slept on, whether an external
cancellation arrives during the `trio.sleep` (interrupting it). -/
structure IterEnv where
  res : Except Exc Unit
  cancelDuringSleep : Bool
  deriving Repr

/-- The `keep_one_runner_running` retry loop (src/server.py lines
249-261), driven by a finite prefix of iteration environments, starting
from backoff counter `r` (the local `retries`).  Returns the list of
completed backoff sleeps (in time units) and, when the loop was exited by
an uncaught `BaseException`, that exception (`none` means the prefix was
consumed with the loop still running).  A failure whose exception is an
`Exception` is caught: the counter is incremented and `2 ** retries` is
slept — unless shutdown cancels the sleep, in which case `trio.Cancelled`
propagates and the delay never completes.  `SystemExit` and
`trio.Cancelled` raised from the lifecycle are not caught by
`except Exception` and exit the loop at once. -/
def superviseGo : List IterEnv → Nat → List Nat × Option Exc
  | [], _ => ([], none)
  | it :: rest, r =>
    match it.res with
    | .ok _ => superviseGo rest 0
    | .error e =>
      if e.isException then
        if it.cancelDuringSleep then ([], some .cancelled)
        else
          let (ds, x) := superviseGo rest (r + 1)
          ((2 ^ (r + 1)) :: ds, x)
      else ([], some e)

/-- `keep_one_runner_running` entered fresh: local `retries = 0`. -/
def keep_one_runner_running (its : List IterEnv) : List Nat × Option Exc :=
  superviseGo its 0

/-- The two subtasks raced inside `runner`'s nursery:
`run_vm_then_cancel` (the `tart run` VM process monitor) and
`run_runner_then_cancel` (the ssh execution session). -/
inductive SubTask where
  | vmMonitor
  | execSession
  deriving DecidableEq, Repr

/-- The sibling of a subtask. -/
def SubTask.sibling : SubTask → SubTask
  | .vmMonitor => .execSession
  | .execSession => .vmMonitor

/-- How the nursery of `runner` (its step 2) ends.  `firstExit first err`:
subtask `first` is the first to exit, normally (`err = none`) or because an
exception `e` was raised in its body (`err = some e`); either way its
`finally: cancel_scope.cancel()` runs and cancels the sibling.
`externalCancel`: the nursery's enclosing scope is cancelled from outside
(shutdown), so both subtasks receive `trio.Cancelled`. -/
inductive Step2End where
  | firstExit (first : SubTask) (err : Option Exc)
  | externalCancel
  deriving DecidableEq, Repr

/-- What the environment does to one execution of `runner`. -/
structure RunnerEnv where
  cloneRc : Int
  setRc : Int
  step2 : Step2End
  deleteRc : Int
  /-- Time units the `tart delete` call takes to complete. -/
  deleteDur : Nat
  /-- Whether an external cancellation is pending when cleanup starts
  (e.g. shutdown arrived during step 2). -/
  outerCancelPending : Bool
  deriving Repr

/-- Observable events of one `runner` execution. -/
inductive Event where
  | procCall (cmd : List String)
  | subtaskExited (t : SubTask)
  /-- `canceller`'s `finally` block calls `cancel_scope.cancel()`,
  cancelling `target`. -/
  | siblingCancel (canceller target : SubTask)
  | cleanupStart
  | deleteAbandoned
  deriving DecidableEq, Repr

/-- Outcome of running a body of duration `bodyDur` inside
`trio.CancelScope(deadline=now + relDeadline, shield=shield)` while an
outer cancellation may already be pending.  Without a shield a pending
outer cancellation aborts the body at its first await; with a shield the
body runs, bounded by the scope's own deadline, which cancels (abandons)
it after `relDeadline` time units.  A `Cancelled` raised by the scope's
own deadline is absorbed by the scope itself. -/
structure ScopeRun where
  bodyStarted : Bool
  bodyCompleted : Bool
  elapsed : Nat
  deriving DecidableEq, Repr

/-- Semantics of a `trio.CancelScope` with a relative deadline. -/
def cancelScopeRun (relDeadline : Nat) (shield outerCancelPending : Bool)
    (bodyDur : Nat) : ScopeRun :=
  if outerCancelPending && !shield then
    { bodyStarted := false, bodyCompleted := false, elapsed := 0 }
  else
    { bodyStarted := true
      bodyCompleted := bodyDur ≤ relDeadline
      elapsed := min bodyDur relDeadline }

/-- The `tart delete` command issued by `runner`'s cleanup. -/
def deleteCmd (runner_name : String) : List String :=
  ["tart", "delete", runner_name]

/-- Events of step 2 of `runner`: both subtasks run under one nursery
whose `cancel_scope` each cancels in its `finally`; the nursery block does
not exit until both subtasks have exited. -/
def step2Events (e : Step2End) : List Event :=
  match e with
  | .firstExit first _ =>
      [.subtaskExited first,
       .siblingCancel first first.sibling,
       .subtaskExited first.sibling]
  | .externalCancel =>
      [.subtaskExited .vmMonitor, .subtaskExited .execSession]

/-- The exception state with which `runner`'s `try` block completes.
A subtask exiting normally cancels the nursery's own scope, whose
`Cancelled` the nursery absorbs, so the block completes normally; an
exception raised in a subtask's body is re-raised by the nursery; an
external cancellation leaves `trio.Cancelled` propagating. -/
def step2Result : Step2End → Except Exc Unit
  | .firstExit _ none => .ok ()
  | .firstExit _ (some e) => .error e
  | .externalCancel => .error .cancelled

/-- Result of one full `runner` execution. -/
structure RunnerRun where
  events : List Event
  result : Except Exc Unit
  /-- Time units the cleanup phase occupied (0 when provisioning failed
  and cleanup never ran). -/
  cleanupElapsed : Nat
  deriving Repr

/-- `runner(config)` (src/server.py lines 226-243).  Provision; race the
two subtasks; in `finally`, delete the VM inside
`trio.CancelScope(deadline=trio.current_time() + 5, shield=True)`.
If the delete completes within the deadline with a non-zero returncode,
`run_process` (default `check=True`) raises `CalledProcessError`, which
replaces whatever exception the `try` block was propagating; if the
deadline expires first, the scope's own cancellation abandons the delete
and is absorbed, and the `try` block's outcome stands. -/
def runner (cfg : Config) (runner_name : String) (env : RunnerEnv) :
    RunnerRun :=
  match provision_tart_vm cfg runner_name env.cloneRc env.setRc with
  | .error e =>
      { events :=
          .procCall (cloneCmd cfg runner_name) ::
            (if env.cloneRc = 0 then [.procCall (setCmd cfg runner_name)]
             else [])
        result := .error e
        cleanupElapsed := 0 }
  | .ok name =>
      let scope := cancelScopeRun 5 true env.outerCancelPending env.deleteDur
      let cleanupResult : Except Exc Unit :=
        if scope.bodyCompleted then
          match run_process (deleteCmd name) env.deleteRc with
          | .error e => .error e
          | .ok _ => step2Result env.step2
        else step2Result env.step2
      { events :=
          [.procCall (cloneCmd cfg runner_name),
           .procCall (setCmd cfg runner_name)] ++
          step2Events env.step2 ++
          [.cleanupStart] ++
          (if scope.bodyStarted then
            .procCall (deleteCmd name) ::
              (if scope.bodyCompleted then [] else [.deleteAbandoned])
           else [])
        result := cleanupResult
        cleanupElapsed := scope.elapsed }

/-- Python whitespace, as `str.strip()` with no argument removes it. -/
def pyIsSpace (c : Char) : Bool :=
  c = ' ' || c = '\t' || c = '\n' || c = '\r' || c = '\x0b' || c = '\x0c'

/-- `line.strip()` is falsy exactly when every character is whitespace;
`textwrap.indent`'s default predicate skips such lines. -/
def isBlank (l : PyStr) : Bool := l.all pyIsSpace

/-- `str.splitlines(keepends=True)`, restricted to `'\n'` as the line
terminator (the only terminator the modelled byte streams contain): split
after every `'\n'`, keeping it; a trailing fragment without a terminator
is its own final element. -/
def splitKeepends : PyStr → List PyStr
  | [] => []
  | c :: rest =>
    if c = '\n' then ['\n'] :: splitKeepends rest
    else
      match splitKeepends rest with
      | [] => [[c]]
      | l :: ls => (c :: l) :: ls

/-- `textwrap.indent(text, pfx)` with the default predicate: prefix every
line of `text.splitlines(True)` whose `strip()` is truthy, and join. -/
def indent (text pfx : PyStr) : PyStr :=
  ((splitKeepends text).map fun l => if isBlank l then l else pfx ++ l).flatten

/-- One `log(textwrap.indent(decoder.decode(b), f"{runner_name}: "))`
call for a decoded chunk: `print` appends a trailing newline. -/
def logWrite (runner_name chunk : PyStr) : PyStr :=
  indent chunk (runner_name ++ [':', ' ']) ++ ['\n']

/-- The shared stdout sink produced by a sequence of atomic `log` writes,
each tagged with the runner name of the `log_output` task that made it.
trio is single-threaded and each `log` call is synchronous, so writes
from concurrently running instances interleave at whole-write
granularity. -/
def sinkOf (writes : List (PyStr × PyStr)) : PyStr :=
  (writes.map fun w => logWrite w.1 w.2).flatten

/-- `log_output(runner_process, runner_name)` (src/server.py lines
174-180) for one instance whose stdout delivers the decoded chunks
`chunks` (the incremental UTF-8 decoder is the identity on chunks that do
not split a multi-byte sequence): its contribution to the sink. -/
def log_output (runner_name : PyStr) (chunks : List PyStr) : PyStr :=
  sinkOf (chunks.map fun c => (runner_name, c))

/-- Physical lines of a character stream: split at each `'\n'`; a final
newline closes the last line (no empty line after it); a trailing
unterminated fragment counts as a line. -/
def linesOf : PyStr → List PyStr
  | [] => []
  | c :: rest =>
    if c = '\n' then [] :: linesOf rest
    else
      match linesOf rest with
      | [] => [[c]]
      | l :: ls => (c :: l) :: ls

/-- `p` begins with `pfx`. -/
def hasPfx : PyStr → PyStr → Bool
  | [], _ => true
  | _ :: _, [] => false
  | c :: p, d :: s => c == d && hasPfx p s

/-- `needle` occurs as a contiguous segment of `hay`. -/
def containsSeg (needle : PyStr) : PyStr → Bool
  | [] => hasPfx needle []
  | c :: rest => hasPfx needle (c :: rest) || containsSeg needle rest

/-- The first log line of `get_registration_token`. -/
def regTokenLogLine1 : PyStr :=
  "Requesting new runner registration-token to github ...".toList

/-- The log lines `get_registration_token` (src/server.py lines 56-83)
writes to the sink, given the registration token and expiry the second
exchange returned.  Line 2 is the f-string of lines 79-82, which
interpolates the token and expiry in full. -/
def get_registration_token_logs (regToken expiresAt : PyStr) : List PyStr :=
  [regTokenLogLine1,
   "New registration token is ".toList ++ regToken ++
     " and expires at ".toList ++ expiresAt]

/-- `get_registration_token(config)`: the app JWT and the installation
access token (`app_token`, `endpoint_token` — the spec's ExchangeToken)
are sent only in HTTP `Authorization` headers; the function logs the two
lines above and returns the registration token. -/
def get_registration_token (_appToken _endpointToken regToken expiresAt : PyStr) :
    PyStr × List PyStr :=
  (regToken, get_registration_token_logs regToken expiresAt)

/-! ### Supporting lemmas about the Slot Supervisor loop -/

/-- On a run of consecutive caught failures starting at backoff counter
`r`, the completed sleeps are `2^(r+1), 2^(r+2), …` and the loop is still
running afterwards. -/
theorem range_pow_succ (r n : Nat) :
    (List.range (n + 1)).map (fun i => 2 ^ (r + i + 1)) =
      2 ^ (r + 1) :: (List.range n).map (fun i => 2 ^ (r + 1 + i + 1)) := by
  rw [List.range_succ_eq_map, List.map_cons, List.map_map]
  refine congrArg₂ List.cons (by norm_num) ?_
  apply List.map_congr_left
  intro i _
  simp only [Function.comp_apply]
  congr 1
  omega

theorem superviseGo_replicate_fail (e : Exc) (he : e.isException = true) :
    ∀ (k r : Nat),
      superviseGo (List.replicate k ⟨.error e, false⟩) r =
        ((List.range k).map (fun i => 2 ^ (r + i + 1)), none) := by
  intro k
  induction k with
  | zero => intro r; simp [superviseGo]
  | succ n ih =>
      intro r
      rw [List.replicate_succ, range_pow_succ]
      simp [superviseGo, he, ih (r + 1)]

/-- The supervisor loop stops at the first iteration whose lifecycle was
ended by `trio.Cancelled`; everything after it is unreachable. -/
theorem superviseGo_stops_at_cancel (b : Bool) :
    ∀ (xs : List IterEnv) (r : Nat) (rest : List IterEnv),
      superviseGo (xs ++ ⟨.error .cancelled, b⟩ :: rest) r =
        superviseGo (xs ++ [⟨.error .cancelled, b⟩]) r := by
  intro xs
  induction xs with
  | nil => intro r rest; simp [superviseGo, Exc.isException]
  | cons it xs ih =>
      intro r rest
      simp only [List.cons_append, superviseGo]
      cases hres : it.res with
      | ok u => exact ih 0 rest
      | error e =>
          by_cases hexc : e.isException = true
          · simp only [hexc, if_true]
            by_cases hsleep : it.cancelDuringSleep = true
            · simp [hsleep]
            · simp only [Bool.not_eq_true] at hsleep
              simp [hsleep, ih (r + 1) rest]
          · simp only [Bool.not_eq_true] at hexc
            simp [hexc]

/-! ### Claim theorems -/

/-- Claim C2: when the hypervisor `tart clone` or `tart set` step exits
non-zero, `trio.run_process` (default `check=True`) raises
`CalledProcessError`; this is an `Exception`, so it propagates out of the
lifecycle to the Slot Supervisor's `except Exception`, is counted as a
failure for backoff purposes (the next completed sleep is `2^(r+1)`), and
does not terminate the process (the loop continues; with no further
iterations the supervisor is still running). -/
theorem C2_provision_failure_fatal_to_attempt_only
    (cfg : Config) (name : String) (env : RunnerEnv)
    (h : env.cloneRc ≠ 0 ∨ env.setRc ≠ 0) :
    ∃ e : Exc,
      (runner cfg name env).result = .error e ∧
      e.isException = true ∧
      (∀ (r : Nat) (rest : List IterEnv),
        superviseGo (⟨.error e, false⟩ :: rest) r =
          ((2 ^ (r + 1)) :: (superviseGo rest (r + 1)).1,
           (superviseGo rest (r + 1)).2)) ∧
      (∀ r : Nat, (superviseGo [⟨.error e, false⟩] r).2 = none) := by
  obtain ⟨cloneRc, setRc, step2, deleteRc, deleteDur, pend⟩ := env
  by_cases hc : cloneRc = 0
  · rcases h with h | h
    · exact absurd hc h
    · refine ⟨.calledProcessError (setCmd cfg name) setRc, ?_, rfl, ?_, ?_⟩
      · simp [runner, provision_tart_vm, run_process, hc, h]
      · intro r rest; simp [superviseGo, Exc.isException]
      · intro r; simp [superviseGo, Exc.isException]
  · refine ⟨.calledProcessError (cloneCmd cfg name) cloneRc, ?_, rfl, ?_, ?_⟩
    · simp [runner, provision_tart_vm, run_process, hc]
    · intro r rest; simp [superviseGo, Exc.isException]
    · intro r; simp [superviseGo, Exc.isException]

/-- Claim C2 witness: a concrete lifecycle whose `tart clone` exits 1. -/
theorem C2_witness :
    ((1 : Int) ≠ 0 ∨ (0 : Int) ≠ 0) ∧
    ∃ e : Exc,
      (runner ⟨"img", 4, 8, "ci", "org", "admin", "", 1⟩ "ci-aa"
          ⟨1, 0, .externalCancel, 0, 0, false⟩).result = .error e ∧
      e.isException = true ∧
      (∀ (r : Nat) (rest : List IterEnv),
        superviseGo (⟨.error e, false⟩ :: rest) r =
          ((2 ^ (r + 1)) :: (superviseGo rest (r + 1)).1,
           (superviseGo rest (r + 1)).2)) ∧
      (∀ r : Nat, (superviseGo [⟨.error e, false⟩] r).2 = none) :=
  ⟨by decide,
   C2_provision_failure_fatal_to_attempt_only
     ⟨"img", 4, 8, "ci", "org", "admin", "", 1⟩ "ci-aa"
     ⟨1, 0, .externalCancel, 0, 0, false⟩ (by left; decide)⟩

/-- Claim C6: a run of `k` consecutive caught failures from a fresh
supervisor produces exactly the sleeps `2^1, 2^2, …, 2^k`, which are
strictly increasing; and after any success the counter is reset, so the
next failure sleeps `2^1` again. -/
theorem C6_backoff_sequence (k : Nat) (e : Exc) (he : e.isException = true)
    (r : Nat) (rest : List IterEnv) :
    (keep_one_runner_running (List.replicate k ⟨.error e, false⟩)).1 =
      (List.range k).map (fun i => 2 ^ (i + 1)) ∧
    ((List.range k).map (fun i => 2 ^ (i + 1))).Pairwise (· < ·) ∧
    (superviseGo (⟨.ok (), false⟩ :: ⟨.error e, false⟩ :: rest) r).1 =
      2 ^ 1 :: (superviseGo rest 1).1 := by
  refine ⟨?_, ?_, ?_⟩
  · rw [keep_one_runner_running, superviseGo_replicate_fail e he k 0]
    simp
  · refine List.Pairwise.map _ (fun a b hab => ?_) (List.pairwise_lt_range k)
    exact Nat.pow_lt_pow_right (by norm_num) (by omega)
  · simp [superviseGo, he]

/-- Claim C6 witness: two consecutive failures sleep 2 then 4; after a
success, the next failure sleeps 2 again. -/
theorem C6_witness :
    Exc.isException .unboundLocalError = true ∧
    ((keep_one_runner_running
        (List.replicate 2 ⟨.error .unboundLocalError, false⟩)).1 =
      (List.range 2).map (fun i => 2 ^ (i + 1)) ∧
    ((List.range 2).map (fun i => 2 ^ (i + 1))).Pairwise (· < ·) ∧
    (superviseGo (⟨.ok (), false⟩ :: ⟨.error .unboundLocalError, false⟩ :: []) 7).1 =
      2 ^ 1 :: (superviseGo [] 1).1) :=
  ⟨by decide, C6_backoff_sequence 2 .unboundLocalError (by decide) 7 []⟩

/-- Claim C7: shutdown cancellation is not caught by the supervisor's
`except Exception`.  A `trio.Cancelled` delivered during the backoff
sleep exits the loop at once with no completed delay; a `trio.Cancelled`
raised from the in-flight lifecycle does the same; and every iteration
after the cancellation point is unreachable, regardless of what it would
have contained. -/
theorem C7_shutdown_exits_loop (e : Exc) (he : e.isException = true)
    (r : Nat) (rest : List IterEnv) (xs : List IterEnv) :
    Exc.isException .cancelled = false ∧
    superviseGo (⟨.error e, true⟩ :: rest) r = ([], some .cancelled) ∧
    superviseGo (⟨.error .cancelled, false⟩ :: rest) r = ([], some .cancelled) ∧
    superviseGo (xs ++ ⟨.error .cancelled, false⟩ :: rest) r =
      superviseGo (xs ++ [⟨.error .cancelled, false⟩]) r := by
  refine ⟨rfl, ?_, ?_, superviseGo_stops_at_cancel false xs r rest⟩
  · simp [superviseGo, he]
  · simp [superviseGo, Exc.isException]

/-- Claim C7 witness: shutdown during the sleep after a concrete failure,
with further (unreached) iterations pending. -/
theorem C7_witness :
    Exc.isException (.calledProcessError ["tart", "clone"] 1) = true ∧
    (Exc.isException .cancelled = false ∧
    superviseGo (⟨.error (.calledProcessError ["tart", "clone"] 1), true⟩ ::
        [⟨.ok (), false⟩]) 0 = ([], some .cancelled) ∧
    superviseGo (⟨.error .cancelled, false⟩ :: [⟨.ok (), false⟩]) 0 =
      ([], some .cancelled) ∧
    superviseGo ([⟨.ok (), false⟩] ++ ⟨.error .cancelled, false⟩ ::
        [⟨.ok (), false⟩]) 0 =
      superviseGo ([⟨.ok (), false⟩] ++ [⟨.error .cancelled, false⟩]) 0) :=
  ⟨by decide,
   C7_shutdown_exits_loop (.calledProcessError ["tart", "clone"] 1) (by decide)
     0 [⟨.ok (), false⟩] [⟨.ok (), false⟩]⟩

/-! ### Supporting lemmas about the address-resolution loop -/

/-- The polling loop never makes more invocations than its retry budget. -/
theorem getTartIpGo_calls_le :
    ∀ (d : Nat) (res : Nat → Option String) (a : Nat),
      (getTartIpGo res a (a + d)).1 ≤ a + d := by
  intro d
  induction d with
  | zero =>
      intro res a
      rw [getTartIpGo]
      simp
  | succ n ih =>
      intro res a
      rw [getTartIpGo]
      have h : a < a + (n + 1) := by omega
      simp only [h, dif_pos]
      cases hr : res a with
      | some s => simp
      | none =>
          have : a + (n + 1) = (a + 1) + n := by omega
          rw [this]
          exact ih res (a + 1)

/-- When every remaining attempt fails, the loop exhausts its budget and
ends in the `UnboundLocalError` of the unbound `result`. -/
theorem getTartIpGo_all_fail :
    ∀ (d : Nat) (res : Nat → Option String) (a : Nat),
      (∀ k, a ≤ k → k < a + d → res k = none) →
      getTartIpGo res a (a + d) = (a + d, .error .unboundLocalError) := by
  intro d
  induction d with
  | zero =>
      intro res a _
      rw [getTartIpGo]
      simp
  | succ n ih =>
      intro res a hf
      rw [getTartIpGo]
      have h : a < a + (n + 1) := by omega
      simp only [h, dif_pos]
      rw [hf a (Nat.le_refl a) h]
      have heq : a + (n + 1) = (a + 1) + n := by omega
      rw [heq]
      exact ih res (a + 1) (fun k h1 h2 => hf k (by omega) (by omega))

/-- Claim C9: `get_tart_ip` with the retry budget of 4 used at its call
site makes at most 4 `tart ip` invocations (each bounded by `--wait 3`,
see `tartIpCmd`); and when every attempt fails it returns no address but
raises an exception (`UnboundLocalError`), which `except Exception` at
the Slot Supervisor catches and counts as a lifecycle failure. -/
theorem C9_address_resolution_budget (res : Nat → Option String) :
    (get_tart_ip res 4).1 ≤ 4 ∧
    ((∀ k, k < 4 → res k = none) →
      get_tart_ip res 4 = (4, .error .unboundLocalError) ∧
      Exc.isException .unboundLocalError = true ∧
      ∀ (r : Nat) (rest : List IterEnv),
        (superviseGo (⟨.error .unboundLocalError, false⟩ :: rest) r).1 =
          2 ^ (r + 1) :: (superviseGo rest (r + 1)).1) := by
  constructor
  · exact getTartIpGo_calls_le 4 res 0
  · intro hf
    refine ⟨getTartIpGo_all_fail 4 res 0 (fun k _ hk => hf k hk), rfl, ?_⟩
    intro r rest
    simp [superviseGo, Exc.isException]

/-- Claim C9 witness: every attempt fails. -/
theorem C9_witness :
    (get_tart_ip (fun _ => none) 4).1 ≤ 4 ∧
    (get_tart_ip (fun _ => none) 4 = (4, .error .unboundLocalError) ∧
      Exc.isException .unboundLocalError = true ∧
      ∀ (r : Nat) (rest : List IterEnv),
        (superviseGo (⟨.error .unboundLocalError, false⟩ :: rest) r).1 =
          2 ^ (r + 1) :: (superviseGo rest (r + 1)).1) :=
  ⟨(C9_address_resolution_budget (fun _ => none)).1,
   (C9_address_resolution_budget (fun _ => none)).2 (fun _ _ => rfl)⟩

/-- Claim C10: when both subtasks have already finished and the
`tart delete` completes within the cleanup deadline but exits non-zero,
`run_process` raises `CalledProcessError` out of the `finally` block, the
lifecycle as a whole fails, and the Slot Supervisor counts it for backoff
(the next completed sleep is `2^(r+1)`). -/
theorem C10_delete_failure_fails_lifecycle (cfg : Config) (name : String)
    (env : RunnerEnv) (t : SubTask)
    (h1 : env.cloneRc = 0) (h2 : env.setRc = 0)
    (h3 : env.step2 = .firstExit t none)
    (h4 : env.deleteDur ≤ 5) (h5 : env.deleteRc ≠ 0) :
    (runner cfg name env).result =
      .error (.calledProcessError (deleteCmd name) env.deleteRc) ∧
    (Exc.calledProcessError (deleteCmd name) env.deleteRc).isException = true ∧
    ∀ (r : Nat) (rest : List IterEnv),
      (superviseGo (⟨(runner cfg name env).result, false⟩ :: rest) r).1 =
        2 ^ (r + 1) :: (superviseGo rest (r + 1)).1 := by
  obtain ⟨cloneRc, setRc, step2, deleteRc, deleteDur, pend⟩ := env
  simp only at h1 h2 h3 h4 h5
  subst h1 h2 h3
  have hres : (runner cfg name
      ⟨0, 0, .firstExit t none, deleteRc, deleteDur, pend⟩).result =
      .error (.calledProcessError (deleteCmd name) deleteRc) := by
    simp [runner, provision_tart_vm, run_process, cancelScopeRun, h4, h5]
  refine ⟨hres, rfl, ?_⟩
  intro r rest
  rw [hres]
  simp [superviseGo, Exc.isException]

/-- Claim C10 witness: both subtasks completed, delete returns 1 within
the deadline. -/
theorem C10_witness :
    ((0 : Int) = 0 ∧ (0 : Int) = 0 ∧
      (RunnerEnv.mk 0 0 (.firstExit .vmMonitor none) 1 2 false).step2 =
        .firstExit .vmMonitor none ∧ (2 : Nat) ≤ 5 ∧ (1 : Int) ≠ 0) ∧
    ((runner ⟨"img", 4, 8, "ci", "org", "admin", "", 1⟩ "ci-bb"
        ⟨0, 0, .firstExit .vmMonitor none, 1, 2, false⟩).result =
      .error (.calledProcessError (deleteCmd "ci-bb") 1) ∧
    (Exc.calledProcessError (deleteCmd "ci-bb") 1).isException = true ∧
    ∀ (r : Nat) (rest : List IterEnv),
      (superviseGo (⟨(runner ⟨"img", 4, 8, "ci", "org", "admin", "", 1⟩ "ci-bb"
          ⟨0, 0, .firstExit .vmMonitor none, 1, 2, false⟩).result, false⟩ ::
            rest) r).1 =
        2 ^ (r + 1) :: (superviseGo rest (r + 1)).1) :=
  ⟨⟨rfl, rfl, rfl, by decide, by decide⟩,
   C10_delete_failure_fails_lifecycle ⟨"img", 4, 8, "ci", "org", "admin", "", 1⟩
     "ci-bb" ⟨0, 0, .firstExit .vmMonitor none, 1, 2, false⟩ .vmMonitor
     rfl rfl rfl (by decide) (by decide)⟩

/-- Claim C3: once provisioning has succeeded, whatever way step 2 ends
and whether or not an external cancellation is pending, the cleanup phase
issues the `tart delete` call (the scope is shielded, so a pending outer
cancellation does not suppress it) and occupies exactly
`min deleteDur 5 ≤ 5` time units: the deletion either finishes or is
abandoned at the 5-unit deadline, so the Slot Supervisor is never blocked
longer. -/
theorem C3_cleanup_shielded_and_bounded (cfg : Config) (name : String)
    (env : RunnerEnv) (h1 : env.cloneRc = 0) (h2 : env.setRc = 0) :
    (runner cfg name env).cleanupElapsed = min env.deleteDur 5 ∧
    (runner cfg name env).cleanupElapsed ≤ 5 ∧
    .procCall (deleteCmd name) ∈ (runner cfg name env).events := by
  obtain ⟨cloneRc, setRc, step2, deleteRc, deleteDur, pend⟩ := env
  simp only at h1 h2
  subst h1 h2
  refine ⟨?_, ?_, ?_⟩
  · simp [runner, provision_tart_vm, run_process, cancelScopeRun]
  · simp [runner, provision_tart_vm, run_process, cancelScopeRun]
  · simp [runner, provision_tart_vm, run_process, cancelScopeRun]

/-- Claim C3 witness: shutdown cancellation pending, deletion would take
30 units; the call is still issued and cleanup takes 5 units. -/
theorem C3_witness :
    ((0 : Int) = 0 ∧ (0 : Int) = 0) ∧
    ((runner ⟨"img", 4, 8, "ci", "org", "admin", "", 1⟩ "ci-cc"
        ⟨0, 0, .externalCancel, 0, 30, true⟩).cleanupElapsed = min 30 5 ∧
    (runner ⟨"img", 4, 8, "ci", "org", "admin", "", 1⟩ "ci-cc"
        ⟨0, 0, .externalCancel, 0, 30, true⟩).cleanupElapsed ≤ 5 ∧
    .procCall (deleteCmd "ci-cc") ∈
      (runner ⟨"img", 4, 8, "ci", "org", "admin", "", 1⟩ "ci-cc"
        ⟨0, 0, .externalCancel, 0, 30, true⟩).events) :=
  ⟨⟨rfl, rfl⟩,
   C3_cleanup_shielded_and_bounded ⟨"img", 4, 8, "ci", "org", "admin", "", 1⟩
     "ci-cc" ⟨0, 0, .externalCancel, 0, 30, true⟩ rfl rfl⟩

/-- Claim C4: within one lifecycle, whichever subtask exits first — for
any reason `err`, including an exception in its own body — appears in the
trace as exiting (index 2), then cancelling its sibling (index 3), and
the cleanup phase begins only later (index 5): the sibling cancellation
happens before cleanup begins. -/
theorem C4_sibling_cancelled_before_cleanup (cfg : Config) (name : String)
    (env : RunnerEnv) (first : SubTask) (err : Option Exc)
    (h1 : env.cloneRc = 0) (h2 : env.setRc = 0)
    (h3 : env.step2 = .firstExit first err) :
    ((runner cfg name env).events)[2]? = some (.subtaskExited first) ∧
    ((runner cfg name env).events)[3]? =
      some (.siblingCancel first first.sibling) ∧
    ((runner cfg name env).events)[5]? = some .cleanupStart ∧
    (3 : Nat) < 5 := by
  obtain ⟨cloneRc, setRc, step2, deleteRc, deleteDur, pend⟩ := env
  simp only at h1 h2 h3
  subst h1 h2 h3
  refine ⟨?_, ?_, ?_, by omega⟩ <;>
    simp [runner, provision_tart_vm, run_process, step2Events]

/-- Claim C4 witness: the execution session raises a concrete exception
and is first to exit. -/
theorem C4_witness :
    ((0 : Int) = 0 ∧ (0 : Int) = 0 ∧
      (RunnerEnv.mk 0 0 (.firstExit .execSession (some .unboundLocalError))
          0 1 false).step2 =
        .firstExit .execSession (some .unboundLocalError)) ∧
    (((runner ⟨"img", 4, 8, "ci", "org", "admin", "", 1⟩ "ci-dd"
        ⟨0, 0, .firstExit .execSession (some .unboundLocalError), 0, 1,
          false⟩).events)[2]? = some (.subtaskExited .execSession) ∧
    ((runner ⟨"img", 4, 8, "ci", "org", "admin", "", 1⟩ "ci-dd"
        ⟨0, 0, .firstExit .execSession (some .unboundLocalError), 0, 1,
          false⟩).events)[3]? =
      some (.siblingCancel .execSession SubTask.execSession.sibling) ∧
    ((runner ⟨"img", 4, 8, "ci", "org", "admin", "", 1⟩ "ci-dd"
        ⟨0, 0, .firstExit .execSession (some .unboundLocalError), 0, 1,
          false⟩).events)[5]? = some .cleanupStart ∧
    (3 : Nat) < 5) :=
  ⟨⟨rfl, rfl, rfl⟩,
   C4_sibling_cancelled_before_cleanup
     ⟨"img", 4, 8, "ci", "org", "admin", "", 1⟩ "ci-dd"
     ⟨0, 0, .firstExit .execSession (some .unboundLocalError), 0, 1, false⟩
     .execSession (some .unboundLocalError) rfl rfl rfl⟩

/-- Claim C1 as amended: for every lifecycle whose provisioning fully
succeeded (both `tart clone` and `tart set` exited 0, so
`provision_tart_vm` returned the runner name), the `tart delete`
operation is invoked exactly once, regardless of how step 2 ended and of
the delete's own duration and result. -/
theorem C1_amended_delete_exactly_once (cfg : Config) (name : String)
    (env : RunnerEnv) (h1 : env.cloneRc = 0) (h2 : env.setRc = 0) :
    (runner cfg name env).events.count (.procCall (deleteCmd name)) = 1 := by
  obtain ⟨cloneRc, setRc, step2, deleteRc, deleteDur, pend⟩ := env
  simp only at h1 h2
  subst h1 h2
  have hclone : cloneCmd cfg name ≠ deleteCmd name := by
    simp [cloneCmd, deleteCmd]
  have hset : setCmd cfg name ≠ deleteCmd name := by
    simp [setCmd, deleteCmd]
  cases step2 with
  | firstExit first errOpt =>
      simp [runner, provision_tart_vm, run_process, step2Events,
        cancelScopeRun, List.count_cons, List.count_append, hclone, hset]
      split <;> simp
  | externalCancel =>
      simp [runner, provision_tart_vm, run_process, step2Events,
        cancelScopeRun, List.count_cons, List.count_append, hclone, hset]
      split <;> simp

/-- Claim C1 witness (for the amended claim): a cancelled lifecycle with
a slow failing delete still deletes exactly once. -/
theorem C1_witness :
    ((0 : Int) = 0 ∧ (0 : Int) = 0) ∧
    (runner ⟨"img", 4, 8, "ci", "org", "admin", "", 1⟩ "ci-ee"
        ⟨0, 0, .externalCancel, 1, 30, true⟩).events.count
      (.procCall (deleteCmd "ci-ee")) = 1 :=
  ⟨⟨rfl, rfl⟩,
   C1_amended_delete_exactly_once ⟨"img", 4, 8, "ci", "org", "admin", "", 1⟩
     "ci-ee" ⟨0, 0, .externalCancel, 1, 30, true⟩ rfl rfl⟩

/-- Claim C1 counterexample: a lifecycle in which the hypervisor clone
succeeded (`cloneRc = 0`, and the clone call is in the trace) but the
resource-configuration step failed (`setRc = 1`).  The exception
propagates before `provision_tart_vm` returns, `runner`'s `try/finally`
is never entered, and `tart delete` is never invoked for the cloned
VM — so deletion is not invoked exactly once for every runner name whose
clone succeeded. -/
theorem C1_counterexample :
    (RunnerEnv.mk 0 1 .externalCancel 0 0 false).cloneRc = 0 ∧
    .procCall (cloneCmd ⟨"img", 4, 8, "ci", "org", "admin", "", 1⟩ "ci-ff") ∈
      (runner ⟨"img", 4, 8, "ci", "org", "admin", "", 1⟩ "ci-ff"
        ⟨0, 1, .externalCancel, 0, 0, false⟩).events ∧
    (runner ⟨"img", 4, 8, "ci", "org", "admin", "", 1⟩ "ci-ff"
        ⟨0, 1, .externalCancel, 0, 0, false⟩).events.count
      (.procCall (deleteCmd "ci-ff")) = 0 := by
  refine ⟨rfl, ?_, ?_⟩ <;>
    simp [runner, provision_tart_vm, run_process, cloneCmd, setCmd, deleteCmd,
      List.count_cons]

/-! ### Supporting lemmas about segment search -/

/-- A list begins with itself followed by anything. -/
theorem hasPfx_append : ∀ (p s : PyStr), hasPfx p (p ++ s) = true := by
  intro p
  induction p with
  | nil => intro s; rfl
  | cons c p ih => intro s; simp [hasPfx, ih]

/-- A leading occurrence is an occurrence. -/
theorem containsSeg_of_hasPfx (tok hay : PyStr) (h : hasPfx tok hay = true) :
    containsSeg tok hay = true := by
  cases hay with
  | nil => exact h
  | cons c rest => simp [containsSeg, h]

/-- A segment planted in the middle is found. -/
theorem containsSeg_append : ∀ (a tok b : PyStr),
    containsSeg tok (a ++ (tok ++ b)) = true := by
  intro a tok b
  induction a with
  | nil => exact containsSeg_of_hasPfx tok (tok ++ b) (hasPfx_append tok b)
  | cons c a ih => simp [containsSeg, ih]

/-- Claim C5 counterexample: for a concrete registration-token value, the
second log line of the credential-exchange operation contains the token
in full — so it is not the case that the RegistrationToken is never
written in full to the logging sink. -/
theorem C5_counterexample :
    ((get_registration_token "app-jwt".toList "endpoint-tok".toList
        "SECRET".toList "2026-01-01T00:00:00Z".toList).2.any
      (fun line => containsSeg "SECRET".toList line)) = true := by
  decide

/-- Claim C5 as amended: the ExchangeToken (the installation access
token) is never written to the logging sink — the log output of the
credential-exchange operation is independent of it (and of the app JWT) —
but the RegistrationToken is written to the sink in full, together with
its expiry, by the `New registration token is …` line. -/
theorem C5_amended_exchange_token_unlogged_registration_token_logged
    (app endp app' endp' regToken expiresAt : PyStr) :
    get_registration_token app endp regToken expiresAt =
      get_registration_token app' endp' regToken expiresAt ∧
    containsSeg regToken
      ((get_registration_token app endp regToken expiresAt).2.getD 1 [])
      = true := by
  refine ⟨rfl, ?_⟩
  have h := containsSeg_append ("New registration token is ".toList) regToken
    (" and expires at ".toList ++ expiresAt)
  simpa [get_registration_token, get_registration_token_logs] using h

/-! ### Supporting lemmas about line structure of the log sink -/

/-- `linesOf` of a nonempty stream is nonempty. -/
theorem linesOf_cons_ne_nil (c : Char) (rest : PyStr) :
    linesOf (c :: rest) ≠ [] := by
  simp only [linesOf]
  split
  · simp
  · split <;> simp

/-- Splitting distributes over a newline-terminated left part. -/
theorem linesOf_append_term : ∀ (y b : PyStr),
    linesOf ((y ++ ['\n']) ++ b) = linesOf (y ++ ['\n']) ++ linesOf b := by
  intro y
  induction y with
  | nil =>
      intro b
      simp [linesOf]
  | cons c y ih =>
      intro b
      by_cases hc : c = '\n'
      · subst hc
        have l1 : linesOf ((('\n' :: y) ++ ['\n']) ++ b) =
            [] :: linesOf ((y ++ ['\n']) ++ b) := by
          simp [linesOf]
        have l2 : linesOf (('\n' :: y) ++ ['\n']) =
            [] :: linesOf (y ++ ['\n']) := by
          simp [linesOf]
        rw [l1, l2, ih b, List.cons_append]
      · rcases hys : linesOf (y ++ ['\n']) with _ | ⟨l, ls⟩
        · exfalso
          cases y with
          | nil => simp [linesOf] at hys
          | cons d ys =>
              exact linesOf_cons_ne_nil d (ys ++ ['\n']) (by simpa using hys)
        · have l1 : linesOf (((c :: y) ++ ['\n']) ++ b) =
              (c :: l) :: (ls ++ linesOf b) := by
            show linesOf (c :: ((y ++ ['\n']) ++ b)) = _
            simp only [linesOf, if_neg hc, ih b, hys]
            simp
          have l2 : linesOf ((c :: y) ++ ['\n']) = (c :: l) :: ls := by
            show linesOf (c :: (y ++ ['\n'])) = _
            simp only [linesOf, if_neg hc, hys]
          rw [l1, l2, List.cons_append]

/-- A newline-free stretch followed by a newline is one whole line. -/
theorem linesOf_single_line : ∀ (x : PyStr), '\n' ∉ x →
    ∀ b, linesOf (x ++ '\n' :: b) = x :: linesOf b := by
  intro x
  induction x with
  | nil => intro _ b; simp [linesOf]
  | cons c x ih =>
      intro h b
      have hc : c ≠ '\n' := fun hc => h (hc ▸ List.mem_cons_self c x)
      have hx : '\n' ∉ x := fun hm => h (List.mem_cons_of_mem c hm)
      show linesOf (c :: (x ++ '\n' :: b)) = _
      simp only [linesOf, if_neg hc, ih hx b]

/-- A newline-free stretch with a final newline is a single line. -/
theorem linesOf_line (x : PyStr) (h : '\n' ∉ x) :
    linesOf (x ++ ['\n']) = [x] := by
  simpa using linesOf_single_line x h []

/-- Shape of `splitlines(keepends=True)` output: every segment but the
last consists of a newline-free body followed by its `'\n'` terminator;
the last segment is either of that shape or a nonempty newline-free
trailing fragment. -/
inductive Segs : List PyStr → Prop
  | nil : Segs []
  | last (x : PyStr) (hx : '\n' ∉ x) (hne : x ≠ []) : Segs [x]
  | term (x : PyStr) (hx : '\n' ∉ x) (ps : List PyStr) (hps : Segs ps) :
      Segs ((x ++ ['\n']) :: ps)

/-- `splitKeepends` output always has the `Segs` shape. -/
theorem segs_splitKeepends : ∀ s : PyStr, Segs (splitKeepends s) := by
  intro s
  induction s with
  | nil => exact .nil
  | cons c rest ih =>
      by_cases hc : c = '\n'
      · subst hc
        show Segs (splitKeepends ('\n' :: rest))
        simp only [splitKeepends, if_pos rfl]
        exact .term [] (by simp) _ ih
      · show Segs (splitKeepends (c :: rest))
        simp only [splitKeepends, if_neg hc]
        rcases hr : splitKeepends rest with _ | ⟨l, ls⟩
        · refine .last [c] ?_ (by simp)
          intro hm
          exact hc (List.mem_singleton.mp hm).symm
        · rw [hr] at ih
          cases ih with
          | last x hx hne =>
              refine .last (c :: l) ?_ (by simp)
              simp only [List.mem_cons, not_or]
              exact ⟨fun h => hc h.symm, hx⟩
          | term x hx ps hps =>
              refine .term (c :: x) ?_ ls hps
              simp only [List.mem_cons, not_or]
              exact ⟨fun h => hc h.symm, hx⟩

/-- Appending the line terminator does not change blankness. -/
theorem isBlank_append_nl (x : PyStr) :
    isBlank (x ++ ['\n']) = isBlank x := by
  simp [isBlank, List.all_append, pyIsSpace]

/-- Every physical line of an indented text block followed by the
`print` newline is either whitespace-only or begins with the prefix. -/
theorem lines_indent_pieces (pfx : PyStr) (hp : '\n' ∉ pfx) :
    ∀ (ps : List PyStr), Segs ps →
      ∀ ℓ ∈ linesOf
          ((ps.map fun l => if isBlank l then l else pfx ++ l).flatten ++
            ['\n']),
        isBlank ℓ = true ∨ hasPfx pfx ℓ = true := by
  intro ps hps
  induction hps with
  | nil =>
      intro ℓ hℓ
      simp only [List.map_nil, List.flatten_nil, List.nil_append] at hℓ
      have : linesOf ['\n'] = [[]] := by simp [linesOf]
      rw [this] at hℓ
      simp only [List.mem_singleton] at hℓ
      subst hℓ
      left
      rfl
  | last x hx hne =>
      intro ℓ hℓ
      simp only [List.map_cons, List.map_nil, List.flatten_cons,
        List.flatten_nil, List.append_nil] at hℓ
      by_cases hb : isBlank x = true
      · rw [if_pos hb, linesOf_line x hx] at hℓ
        simp only [List.mem_singleton] at hℓ
        subst hℓ
        exact Or.inl hb
      · rw [if_neg hb, linesOf_line (pfx ++ x) (by simp [hp, hx])] at hℓ
        simp only [List.mem_singleton] at hℓ
        subst hℓ
        exact Or.inr (hasPfx_append pfx x)
  | term x hx ps hps ih =>
      intro ℓ hℓ
      simp only [List.map_cons, List.flatten_cons, List.append_assoc] at hℓ
      by_cases hb : isBlank (x ++ ['\n']) = true
      · rw [if_pos hb, List.append_assoc, List.singleton_append,
          linesOf_single_line x hx] at hℓ
        rcases List.mem_cons.mp hℓ with h | h
        · subst h
          left
          rw [isBlank_append_nl] at hb
          exact hb
        · exact ih ℓ h
      · rw [if_neg hb] at hℓ
        have hx' : '\n' ∉ pfx ++ x := by simp [hp, hx]
        have : pfx ++ (x ++ ['\n']) ++
            (((ps.map fun l => if isBlank l then l else pfx ++ l).flatten) ++
              ['\n']) =
            (pfx ++ x) ++ '\n' ::
              (((ps.map fun l => if isBlank l then l else pfx ++ l).flatten) ++
                ['\n']) := by
          simp
        rw [this, linesOf_single_line (pfx ++ x) hx'] at hℓ
        rcases List.mem_cons.mp hℓ with h | h
        · subst h
          exact Or.inr (hasPfx_append pfx x)
        · exact ih ℓ h

/-- Every physical line a single `log` write contributes is either
whitespace-only or begins with `"<runner_name>: "`. -/
theorem logWrite_lines (name chunk : PyStr) (h : '\n' ∉ name) :
    ∀ ℓ ∈ linesOf (logWrite name chunk),
      isBlank ℓ = true ∨ hasPfx (name ++ [':', ' ']) ℓ = true := by
  have hp : '\n' ∉ name ++ [':', ' '] := by
    simp only [List.mem_append, List.mem_cons, List.not_mem_nil]
    rintro (hm | hm | hm | hm) <;> simp_all
  exact lines_indent_pieces (name ++ [':', ' ']) hp (splitKeepends chunk)
    (segs_splitKeepends chunk)

/-- The physical lines of the shared sink are exactly the concatenation,
in order, of each atomic write's own lines: writes interleave at line
granularity, and no line mixes content from two writes. -/
theorem linesOf_sinkOf : ∀ ws : List (PyStr × PyStr),
    linesOf (sinkOf ws) =
      (ws.map fun w => linesOf (logWrite w.1 w.2)).flatten := by
  intro ws
  induction ws with
  | nil => simp [sinkOf, linesOf]
  | cons w ws ih =>
      show linesOf (logWrite w.1 w.2 ++ sinkOf ws) = _
      rw [show logWrite w.1 w.2 = indent w.2 (w.1 ++ [':', ' ']) ++ ['\n']
        from rfl, linesOf_append_term, ih]
      simp [logWrite, sinkOf]

/-- Claim C8 counterexample: with runner name `"r"` and the agent output
line `"hello"` delivered as the chunks `" \nhe"` and `"llo\n"`, the lines
written to the sink are `[" ", "r: he", "r: llo", ""]` — not one prefixed
line per agent output line (`["r:  ", "r: hello"]`), and the
whitespace-only line `" "` is emitted with no prefix at all. -/
theorem C8_counterexample :
    ¬ (linesOf (log_output ['r'] [[' ', '\n', 'h', 'e'], ['l', 'l', 'o', '\n']]) =
        (linesOf (([[' ', '\n', 'h', 'e'], ['l', 'l', 'o', '\n']] :
            List PyStr).flatten)).map (fun ℓ => ['r', ':', ' '] ++ ℓ)) ∧
    ∃ ℓ ∈ linesOf (log_output ['r'] [[' ', '\n', 'h', 'e'], ['l', 'l', 'o', '\n']]),
      hasPfx ['r', ':', ' '] ℓ = false := by
  decide

/-- Claim C8 as amended: the shared sink's lines are exactly the
concatenation, in order, of each atomic write's own lines, so output
from concurrently running instances interleaves at line granularity and
no emitted line mixes two instances' content; and every emitted line
that contains a non-whitespace character begins with its instance's
`"<runner_name>: "` prefix.  Whitespace-only lines (which
`textwrap.indent`'s default predicate skips, including the empty line
`print`'s terminator adds after each chunk) are emitted without the
prefix, and an agent line split across chunks is emitted as several
prefixed lines. -/
theorem C8_amended_line_granularity_and_prefixes
    (ws : List (PyStr × PyStr)) (h : ∀ w ∈ ws, '\n' ∉ w.1) :
    linesOf (sinkOf ws) =
      (ws.map fun w => linesOf (logWrite w.1 w.2)).flatten ∧
    (∀ w ∈ ws, ∀ ℓ ∈ linesOf (logWrite w.1 w.2),
      isBlank ℓ = true ∨ hasPfx (w.1 ++ [':', ' ']) ℓ = true) ∧
    (∀ (name : PyStr) (chunks : List PyStr), '\n' ∉ name →
      ∀ ℓ ∈ linesOf (log_output name chunks),
        isBlank ℓ = true ∨ hasPfx (name ++ [':', ' ']) ℓ = true) := by
  refine ⟨linesOf_sinkOf ws, ?_, ?_⟩
  · intro w hw ℓ hℓ
    exact logWrite_lines w.1 w.2 (h w hw) ℓ hℓ
  · intro name chunks hn ℓ hℓ
    rw [log_output, linesOf_sinkOf] at hℓ
    rcases List.mem_flatten.mp hℓ with ⟨L, hL, hmem⟩
    rcases List.mem_map.mp hL with ⟨w, hw, rfl⟩
    rcases List.mem_map.mp hw with ⟨c, hc, rfl⟩
    exact logWrite_lines name c hn ℓ hmem

/-- Claim C8 witness: two concrete instances writing concurrently. -/
theorem C8_witness :
    (∀ w ∈ ([(['r', '1'], ['h', 'i', '\n']), (['r', '2'], ['y', 'o', '\n'])] :
        List (PyStr × PyStr)), '\n' ∉ w.1) ∧
    (linesOf (sinkOf [(['r', '1'], ['h', 'i', '\n']),
        (['r', '2'], ['y', 'o', '\n'])]) =
      (([(['r', '1'], ['h', 'i', '\n']), (['r', '2'], ['y', 'o', '\n'])] :
          List (PyStr × PyStr)).map fun w =>
        linesOf (logWrite w.1 w.2)).flatten ∧
    (∀ w ∈ ([(['r', '1'], ['h', 'i', '\n']), (['r', '2'], ['y', 'o', '\n'])] :
        List (PyStr × PyStr)), ∀ ℓ ∈ linesOf (logWrite w.1 w.2),
      isBlank ℓ = true ∨ hasPfx (w.1 ++ [':', ' ']) ℓ = true) ∧
    (∀ (name : PyStr) (chunks : List PyStr), '\n' ∉ name →
      ∀ ℓ ∈ linesOf (log_output name chunks),
        isBlank ℓ = true ∨ hasPfx (name ++ [':', ' ']) ℓ = true)) :=
  ⟨by decide,
   C8_amended_line_granularity_and_prefixes
     [(['r', '1'], ['h', 'i', '\n']), (['r', '2'], ['y', 'o', '\n'])]
     (by decide)⟩

end Cidermill
